import Mathlib

/-!
Verification of the gesture recognition and interaction state machine of the
hand-controlled 3D tree application.  The definitions below are a shallow
embedding of `processGestures` and its retained state from
`src/components/HandController.tsx` (the later of the two controller
revisions in that file, the one with velocity smoothing and the
deadzone-subtracted rotation impulse).  Coordinates, times and velocities are
modelled as real numbers; `Math.hypot` becomes `Real.sqrt` of the sum of
squares and `Math.pow(x, 1.2)` becomes the real power `x ^ (1.2 : ℝ)`.
The per-frame callback invocations (`onRotateChange`, `onStateChange`,
`onZoomChange`, `onPhotoFocusChange`) are collected in an `Emits` record:
each field is `some v` exactly when the source invokes the corresponding
callback with value `v` during that frame (each callback is invoked at most
once per frame along every source path).
-/

noncomputable section

open Classical

/-- A 2D landmark position.  The source receives (x, y, z) normalized
landmarks but the gesture logic only ever reads `.x` and `.y`. -/
structure Pt where
  x : ℝ
  y : ℝ

/-- One detected hand: the landmark array, modelled as a total function from
index to point.  The gesture code reads indices 0 (wrist), 4 (thumb tip),
8 (index tip), 12, 16, 20 (remaining fingertips). -/
abbrev Hand := ℕ → Pt

/-- `TreeState` from `src/types.ts`. -/
inductive TreeState where
  | CHAOS
  | FORMED
deriving DecidableEq

/-- `GestureAction` from `src/components/HandController.tsx`. -/
inductive GestureAction where
  | LOCKED_FOCUS
  | FORM
  | CHAOS
  | CONTROL
  | NONE
deriving DecidableEq

/-- The `pinchState` ref. -/
structure PinchState where
  isPinched : Bool
  lastPinchReleaseTime : ℝ
  clickCount : ℕ
  isLocked : Bool

/-- All mutable refs read or written by `processGestures`. -/
structure GState where
  currentZoomLevel : ℝ
  handsDistanceHistory : List ℝ
  pinch : PinchState
  lastWristPos : Option (ℝ × ℝ)
  smoothedVelocity : ℝ

/-- The callback invocations made during one `processGestures` call:
`rotate` = argument of `onRotateChange`, `tree` = argument of
`onStateChange`, `zoom` = argument of `onZoomChange`, `photoFocus` =
argument of `onPhotoFocusChange`; `none` when the callback is not invoked. -/
structure Emits where
  rotate : Option ℝ := none
  tree : Option TreeState := none
  zoom : Option ℝ := none
  photoFocus : Option Bool := none

/-- `const DOUBLE_PINCH_TIMING = 400; // ms` -/
def DOUBLE_PINCH_TIMING : ℝ := 400

/-- `const FIST_THRESHOLD = 0.20;` -/
def FIST_THRESHOLD : ℝ := 0.20

/-- `const CHAOS_SPREAD_SPEED_THRESHOLD = 0.015;` -/
def CHAOS_SPREAD_SPEED_THRESHOLD : ℝ := 0.015

/-- `const ROTATION_THRESHOLD = 0.01; // Deadzone` -/
def ROTATION_THRESHOLD : ℝ := 0.01

/-- `const ZOOM_THRESHOLD = 0.005;` -/
def ZOOM_THRESHOLD : ℝ := 0.005

/-- `const ROTATION_SENSITIVITY = 20.0;` -/
def ROTATION_SENSITIVITY : ℝ := 20.0

/-- `const ZOOM_SENSITIVITY = 2.0;` -/
def ZOOM_SENSITIVITY : ℝ := 2.0

/-- The inline pinch threshold literal: `pinchDist < 0.06`. -/
def PINCH_THRESHOLD : ℝ := 0.06

/-- `Math.hypot(dx, dy)`. -/
def hypotXY (dx dy : ℝ) : ℝ := Real.sqrt (dx ^ 2 + dy ^ 2)

/-- Inter-hand wrist distance:
`Math.hypot(h1Wrist.x - h2Wrist.x, h1Wrist.y - h2Wrist.y)`. -/
def wristDist (h1 h2 : Hand) : ℝ :=
  hypotXY ((h1 0).x - (h2 0).x) ((h1 0).y - (h2 0).y)

/-- Push a sample into `handsDistanceHistory`:
`push(dist); if (length > 5) shift();`. -/
def pushHist (hist : List ℝ) (d : ℝ) : List ℝ :=
  if 5 < (hist ++ [d]).length then (hist ++ [d]).tail else hist ++ [d]

/-- The inter-hand-distance history after the frame: pushed when a second
hand is present, cleared (`= []`) otherwise. -/
def newHist (h1 : Hand) (hand2 : Option Hand) (hist : List ℝ) : List ℝ :=
  match hand2 with
  | some h2 => pushHist hist (wristDist h1 h2)
  | none => []

/-- The spread test on the post-push history: at least 3 samples and
`history[length-1] - history[0] > CHAOS_SPREAD_SPEED_THRESHOLD`. -/
def isSpreading (hist : List ℝ) : Prop :=
  3 ≤ hist.length ∧
    CHAOS_SPREAD_SPEED_THRESHOLD < hist.getLastD 0 - hist.headD 0

/-- Distance from a fingertip to the wrist of the same hand. -/
def tipDist (h : Hand) (i : ℕ) : ℝ :=
  hypotXY ((h i).x - (h 0).x) ((h i).y - (h 0).y)

/-- `avgTipDist`: mean wrist distance of the four non-thumb fingertips
(indices 8, 12, 16, 20). -/
def avgTipDist (h : Hand) : ℝ :=
  (tipDist h 8 + tipDist h 12 + tipDist h 16 + tipDist h 20) / 4

/-- `checkFist`: `avgTipDist < FIST_THRESHOLD`. -/
def checkFist (h : Hand) : Prop := avgTipDist h < FIST_THRESHOLD

/-- `checkFist(hand1) || (hand2 && checkFist(hand2))`. -/
def fistAny (h1 : Hand) (hand2 : Option Hand) : Prop :=
  checkFist h1 ∨ (match hand2 with | some h2 => checkFist h2 | none => False)

/-- Thumb-tip-to-index-tip distance of a hand. -/
def pinchDistOf (h : Hand) : ℝ :=
  hypotXY ((h 4).x - (h 8).x) ((h 4).y - (h 8).y)

/-- The pinch-engage update: on the rising edge of "pinched", set
`clickCount`/`isLocked` from the double-pinch timing window. -/
def pinchEngage (isCur : Prop) (now : ℝ) (p : PinchState) : PinchState :=
  if isCur ∧ p.isPinched = false then
    if now - p.lastPinchReleaseTime < DOUBLE_PINCH_TIMING then
      { p with clickCount := 2, isLocked := true }
    else
      { p with clickCount := 1 }
  else p

/-- The pinch-release update: on the falling edge, record the release time
and, when locked, clear the lock and emit `onPhotoFocusChange(false)`
(returned as the second component). -/
def pinchRelease (isCur : Prop) (now : ℝ) (p : PinchState) :
    PinchState × Option Bool :=
  if ¬ isCur ∧ p.isPinched = true then
    if p.isLocked = true then
      ({ p with lastPinchReleaseTime := now, isLocked := false,
                clickCount := 0 }, some false)
    else
      ({ p with lastPinchReleaseTime := now }, none)
  else (p, none)

/-- The complete pinch sub-state update of one frame (engage check, release
check, then `isPinched := isCurrentlyPinched`). -/
def pinchStep (isCur : Prop) (now : ℝ) (p : PinchState) :
    PinchState × Option Bool :=
  ({ (pinchRelease isCur now (pinchEngage isCur now p)).1 with
      isPinched := if isCur then true else false },
   (pinchRelease isCur now (pinchEngage isCur now p)).2)

/-- Horizontal wrist delta `dX` (0 when no previous wrist sample exists). -/
def wristDX (h1 : Hand) : Option (ℝ × ℝ) → ℝ
  | some p => (h1 0).x - p.1
  | none => 0

/-- Vertical wrist delta `dY` (0 when no previous wrist sample exists). -/
def wristDY (h1 : Hand) : Option (ℝ × ℝ) → ℝ
  | some p => (h1 0).y - p.2
  | none => 0

/-- `Math.sign`. -/
def signR (x : ℝ) : ℝ := if 0 < x then 1 else if x < 0 then -1 else 0

/-- The rotation impulse `rotInput` of the drag-control rule:
`sign(dX) * Math.pow(|dX| - ROTATION_THRESHOLD, 1.2) * ROTATION_SENSITIVITY`
when `|dX|` exceeds the deadzone, 0 otherwise. -/
def rotImpulse (dX : ℝ) : ℝ :=
  if ROTATION_THRESHOLD < |dX| then
    signR dX * (|dX| - ROTATION_THRESHOLD) ^ (1.2 : ℝ) * ROTATION_SENSITIVITY
  else 0

/-- `Math.max(0, Math.min(1, x))`. -/
def clamp01 (x : ℝ) : ℝ := max 0 (min 1 x)

/-- The zoom level after the drag-control rule. -/
def zoomNext (z dY : ℝ) : ℝ :=
  if ZOOM_THRESHOLD < |dY| then clamp01 (z + -dY * ZOOM_SENSITIVITY) else z

/-- The `onZoomChange` emission of the drag-control rule. -/
def zoomEmitted (z dY : ℝ) : Option ℝ :=
  if ZOOM_THRESHOLD < |dY| then some (zoomNext z dY) else none

/-- Shallow embedding of `processGestures(landmarksArray)`:
takes the detected hands, the current time (`performance.now()`), and the
retained state; returns the updated state, the callback emissions, and the
returned `GestureAction`. -/
def processGestures : List Hand → ℝ → GState → GState × Emits × GestureAction
  | [], _, s =>
    ({ s with
        smoothedVelocity := s.smoothedVelocity * 0.8,
        pinch := { isPinched := false,
                   lastPinchReleaseTime := s.pinch.lastPinchReleaseTime,
                   clickCount := 0, isLocked := false },
        lastWristPos := none,
        handsDistanceHistory := [] },
     { rotate := some (if 0.001 < |s.smoothedVelocity * 0.8| then
                         s.smoothedVelocity * 0.8 else 0) },
     GestureAction.NONE)
  | h1 :: rest, now, s =>
    if isSpreading (newHist h1 rest.head? s.handsDistanceHistory) then
      ({ s with
          handsDistanceHistory := newHist h1 rest.head? s.handsDistanceHistory },
       { tree := some TreeState.CHAOS }, GestureAction.CHAOS)
    else if fistAny h1 rest.head? then
      ({ s with
          handsDistanceHistory := newHist h1 rest.head? s.handsDistanceHistory },
       { tree := some TreeState.FORMED }, GestureAction.FORM)
    else if (pinchStep (pinchDistOf h1 < PINCH_THRESHOLD) now s.pinch).1.isLocked
        = true then
      ({ s with
          handsDistanceHistory := newHist h1 rest.head? s.handsDistanceHistory,
          pinch := (pinchStep (pinchDistOf h1 < PINCH_THRESHOLD) now s.pinch).1 },
       { rotate := some 0, photoFocus := some true },
       GestureAction.LOCKED_FOCUS)
    else
      ({ s with
          handsDistanceHistory := newHist h1 rest.head? s.handsDistanceHistory,
          pinch := (pinchStep (pinchDistOf h1 < PINCH_THRESHOLD) now s.pinch).1,
          lastWristPos := some ((h1 0).x, (h1 0).y),
          smoothedVelocity := s.smoothedVelocity * 0.8 + rotImpulse (wristDX h1 s.lastWristPos) * 0.2,
          currentZoomLevel := zoomNext s.currentZoomLevel (wristDY h1 s.lastWristPos) },
       { rotate := some (s.smoothedVelocity * 0.8 + rotImpulse (wristDX h1 s.lastWristPos) * 0.2),
         zoom := zoomEmitted s.currentZoomLevel (wristDY h1 s.lastWristPos),
         photoFocus := (pinchStep (pinchDistOf h1 < PINCH_THRESHOLD) now s.pinch).2 },
       GestureAction.CONTROL)

/-- The initial values of all the refs
(`currentZoomLevel = 0.5`, empty history, pinch state all cleared with
`lastPinchReleaseTime = 0`, no last wrist position, `smoothedVelocity = 0`). -/
def initState : GState :=
  { currentZoomLevel := 0.5,
    handsDistanceHistory := [],
    pinch := { isPinched := false, lastPinchReleaseTime := 0,
               clickCount := 0, isLocked := false },
    lastWristPos := none,
    smoothedVelocity := 0 }

/-- One state-transition step: the state component of `processGestures`. -/
def step (s : GState) (inp : List Hand × ℝ) : GState :=
  (processGestures inp.1 inp.2 s).1

/-- Running a whole sequence of frames through the controller. -/
def run (s : GState) (inps : List (List Hand × ℝ)) : GState :=
  inps.foldl step s

/-- Iterating the empty-detection branch (`now` is irrelevant there: the
empty branch never reads it). -/
def emptyRun (s : GState) : ℕ → GState
  | 0 => s
  | n + 1 => (processGestures [] 0 (emptyRun s n)).1

/-- The rotation velocity emitted by the (n+1)-st consecutive
empty-detection invocation. -/
def emptyEmitVal (s : GState) (n : ℕ) : ℝ :=
  ((processGestures [] 0 (emptyRun s n)).2.1.rotate).getD 0

/-- A fully closed fist used as a concrete test hand: every landmark at the
same point, so all wrist distances and the pinch distance are 0. -/
def fistHand : Hand := fun _ => ⟨0.5, 0.5⟩

/-- A concrete open test hand with wrist at `(d, 0)`: thumb tip at
`(d + 0.2, 0)` and every other landmark at `(d + 0.9, 0)`, so it is neither
a fist (mean fingertip distance 0.9) nor pinched (pinch distance 0.7). -/
def wristAt (d : ℝ) : Hand := fun i =>
  if i = 0 then ⟨d, 0⟩ else if i = 4 then ⟨d + 0.2, 0⟩ else ⟨d + 0.9, 0⟩

/-- The open test hand with wrist at the origin. -/
def openHand : Hand := wristAt 0

/-- A concrete pinching (but not fist-closed) test hand: wrist at the
origin, thumb tip and index tip both at `(0.1, 0)` (pinch distance 0), the
remaining fingertips at `(0.9, 0)` (mean fingertip distance 0.7). -/
def engageHand : Hand := fun i =>
  if i = 0 then ⟨0, 0⟩ else if i = 4 ∨ i = 8 then ⟨0.1, 0⟩ else ⟨0.9, 0⟩

/-- Modelled from the spec: the rotation impulse exactly as the drag-control
sentence of the spec states it, `sign(dx) * (|dx|)^1.2 * sensitivity`, with
no deadzone subtraction inside the power.  Used only to compare the spec's
formula against the source's `rotImpulse`. -/
def claimedImpulse (dX : ℝ) : ℝ :=
  if ROTATION_THRESHOLD < |dX| then
    signR dX * |dX| ^ (1.2 : ℝ) * ROTATION_SENSITIVITY
  else 0

/-- A state in the middle of a held first (single) pinch: pinched, unlocked. -/
def sPinchedUnlocked : GState :=
  { initState with
      pinch := { isPinched := true, lastPinchReleaseTime := 0,
                 clickCount := 1, isLocked := false } }

/-- A state in the middle of a held double pinch: pinched and locked. -/
def sPinchedLocked : GState :=
  { initState with
      pinch := { isPinched := true, lastPinchReleaseTime := 0,
                 clickCount := 2, isLocked := true } }

/-- A state that already tracks a previous wrist position at the origin. -/
def sTracking : GState := { initState with lastWristPos := some (0, 0) }

/-- The spec's spread-scenario wrist distances. -/
def scenDist (n : ℕ) : ℝ := [0.10, 0.11, 0.13, 0.16, 0.20].getD n 0

/-- The n-th two-hand frame of the spread scenario: first wrist at the
origin, second wrist at distance `scenDist n` along the x axis. -/
def scenFrame (n : ℕ) : List Hand := [openHand, wristAt (scenDist n)]

/-- The state after feeding the first n scenario frames from `initState`. -/
def scenState : ℕ → GState
  | 0 => initState
  | n + 1 => (processGestures (scenFrame n) 0 (scenState n)).1

/-- The action resolved by the (n+1)-st scenario frame. -/
def scenAct (n : ℕ) : GestureAction :=
  (processGestures (scenFrame n) 0 (scenState n)).2.2

end

/-! ## Basic evaluation lemmas -/

theorem sqrt_eval (a r : ℝ) (hr : 0 ≤ r) (h : a = r ^ 2) : Real.sqrt a = r := by
  rw [h, Real.sqrt_sq hr]

theorem hypotXY_zero_right (a : ℝ) : hypotXY a 0 = |a| := by
  rw [hypotXY, show a ^ 2 + (0:ℝ) ^ 2 = a ^ 2 by ring, Real.sqrt_sq_eq_abs]

theorem newHist_one (h1 : Hand) (hist : List ℝ) : newHist h1 none hist = [] := rfl

theorem newHist_two (h1 h2 : Hand) (hist : List ℝ) :
    newHist h1 (some h2) hist = pushHist hist (wristDist h1 h2) := rfl

theorem not_spreading_short (l : List ℝ) (h : l.length < 3) : ¬ isSpreading l := by
  intro hs
  exact absurd hs.1 (by omega)

/-! ## pinchStep case lemmas -/

theorem pinchStep_hold (c : Prop) (now : ℝ) (p : PinchState)
    (hc : c) (hp : p.isPinched = true) : pinchStep c now p = (p, none) := by
  have he : pinchEngage c now p = p := by
    rw [pinchEngage, if_neg]
    simp [hp]
  have hr : pinchRelease c now p = (p, none) := by
    rw [pinchRelease, if_neg]
    simp [hc]
  rw [pinchStep, he, hr]
  simp [if_pos hc, ← hp]

theorem pinchStep_idle (c : Prop) (now : ℝ) (p : PinchState)
    (hc : ¬ c) (hp : p.isPinched = false) : pinchStep c now p = (p, none) := by
  have he : pinchEngage c now p = p := by
    rw [pinchEngage, if_neg]
    simp [hc]
  have hr : pinchRelease c now p = (p, none) := by
    rw [pinchRelease, if_neg]
    simp [hp]
  rw [pinchStep, he, hr]
  simp [if_neg hc, ← hp]

theorem pinchStep_engage_window (c : Prop) (now : ℝ) (p : PinchState)
    (hc : c) (hp : p.isPinched = false)
    (ht : now - p.lastPinchReleaseTime < DOUBLE_PINCH_TIMING) :
    pinchStep c now p =
      ({ isPinched := true, lastPinchReleaseTime := p.lastPinchReleaseTime,
         clickCount := 2, isLocked := true }, none) := by
  have he : pinchEngage c now p = { p with clickCount := 2, isLocked := true } := by
    rw [pinchEngage, if_pos ⟨hc, hp⟩, if_pos ht]
  have hr : pinchRelease c now { p with clickCount := 2, isLocked := true } =
      ({ p with clickCount := 2, isLocked := true }, none) := by
    rw [pinchRelease, if_neg]
    simp [hc]
  rw [pinchStep, he, hr]
  simp [if_pos hc]

theorem pinchStep_engage_fresh (c : Prop) (now : ℝ) (p : PinchState)
    (hc : c) (hp : p.isPinched = false)
    (ht : ¬ now - p.lastPinchReleaseTime < DOUBLE_PINCH_TIMING) :
    pinchStep c now p =
      ({ isPinched := true, lastPinchReleaseTime := p.lastPinchReleaseTime,
         clickCount := 1, isLocked := p.isLocked }, none) := by
  have he : pinchEngage c now p = { p with clickCount := 1 } := by
    rw [pinchEngage, if_pos ⟨hc, hp⟩, if_neg ht]
  have hr : pinchRelease c now { p with clickCount := 1 } =
      ({ p with clickCount := 1 }, none) := by
    rw [pinchRelease, if_neg]
    simp [hc]
  rw [pinchStep, he, hr]
  simp [if_pos hc]

theorem pinchStep_release_locked (c : Prop) (now : ℝ) (p : PinchState)
    (hc : ¬ c) (hp : p.isPinched = true) (hl : p.isLocked = true) :
    pinchStep c now p =
      ({ isPinched := false, lastPinchReleaseTime := now,
         clickCount := 0, isLocked := false }, some false) := by
  have he : pinchEngage c now p = p := by
    rw [pinchEngage, if_neg]
    simp [hc]
  have hr : pinchRelease c now p =
      ({ p with lastPinchReleaseTime := now, isLocked := false,
                clickCount := 0 }, some false) := by
    rw [pinchRelease, if_pos ⟨hc, hp⟩, if_pos hl]
  rw [pinchStep, he, hr]
  simp [if_neg hc]

theorem pinchStep_release_unlocked (c : Prop) (now : ℝ) (p : PinchState)
    (hc : ¬ c) (hp : p.isPinched = true) (hl : p.isLocked = false) :
    pinchStep c now p =
      ({ isPinched := false, lastPinchReleaseTime := now,
         clickCount := p.clickCount, isLocked := false }, none) := by
  have he : pinchEngage c now p = p := by
    rw [pinchEngage, if_neg]
    simp [hc]
  have hr : pinchRelease c now p =
      ({ p with lastPinchReleaseTime := now }, none) := by
    rw [pinchRelease, if_pos ⟨hc, hp⟩, if_neg (by simp [hl])]
  rw [pinchStep, he, hr]
  simp [if_neg hc, hl]

/-! ## Branch equation lemmas for processGestures -/

theorem pg_empty (now : ℝ) (s : GState) :
    processGestures [] now s =
      ({ s with
          smoothedVelocity := s.smoothedVelocity * 0.8,
          pinch := { isPinched := false,
                     lastPinchReleaseTime := s.pinch.lastPinchReleaseTime,
                     clickCount := 0, isLocked := false },
          lastWristPos := none,
          handsDistanceHistory := [] },
       { rotate := some (if 0.001 < |s.smoothedVelocity * 0.8| then
                           s.smoothedVelocity * 0.8 else 0) },
       GestureAction.NONE) := rfl

theorem pg_chaos (h1 : Hand) (rest : List Hand) (now : ℝ) (s : GState)
    (hs : isSpreading (newHist h1 rest.head? s.handsDistanceHistory)) :
    processGestures (h1 :: rest) now s =
      ({ s with
          handsDistanceHistory := newHist h1 rest.head? s.handsDistanceHistory },
       { tree := some TreeState.CHAOS }, GestureAction.CHAOS) := by
  rw [processGestures, if_pos hs]

theorem pg_form (h1 : Hand) (rest : List Hand) (now : ℝ) (s : GState)
    (hs : ¬ isSpreading (newHist h1 rest.head? s.handsDistanceHistory))
    (hf : fistAny h1 rest.head?) :
    processGestures (h1 :: rest) now s =
      ({ s with
          handsDistanceHistory := newHist h1 rest.head? s.handsDistanceHistory },
       { tree := some TreeState.FORMED }, GestureAction.FORM) := by
  rw [processGestures, if_neg hs, if_pos hf]

theorem pg_locked (h1 : Hand) (rest : List Hand) (now : ℝ) (s : GState)
    (hs : ¬ isSpreading (newHist h1 rest.head? s.handsDistanceHistory))
    (hf : ¬ fistAny h1 rest.head?)
    (hl : (pinchStep (pinchDistOf h1 < PINCH_THRESHOLD) now s.pinch).1.isLocked
        = true) :
    processGestures (h1 :: rest) now s =
      ({ s with
          handsDistanceHistory := newHist h1 rest.head? s.handsDistanceHistory,
          pinch := (pinchStep (pinchDistOf h1 < PINCH_THRESHOLD) now s.pinch).1 },
       { rotate := some 0, photoFocus := some true },
       GestureAction.LOCKED_FOCUS) := by
  rw [processGestures, if_neg hs, if_neg hf, if_pos hl]

theorem pg_control (h1 : Hand) (rest : List Hand) (now : ℝ) (s : GState)
    (hs : ¬ isSpreading (newHist h1 rest.head? s.handsDistanceHistory))
    (hf : ¬ fistAny h1 rest.head?)
    (hl : ¬ (pinchStep (pinchDistOf h1 < PINCH_THRESHOLD) now s.pinch).1.isLocked
        = true) :
    processGestures (h1 :: rest) now s =
      ({ s with
          handsDistanceHistory := newHist h1 rest.head? s.handsDistanceHistory,
          pinch := (pinchStep (pinchDistOf h1 < PINCH_THRESHOLD) now s.pinch).1,
          lastWristPos := some ((h1 0).x, (h1 0).y),
          smoothedVelocity := s.smoothedVelocity * 0.8 + rotImpulse (wristDX h1 s.lastWristPos) * 0.2,
          currentZoomLevel := zoomNext s.currentZoomLevel (wristDY h1 s.lastWristPos) },
       { rotate := some (s.smoothedVelocity * 0.8 + rotImpulse (wristDX h1 s.lastWristPos) * 0.2),
         zoom := zoomEmitted s.currentZoomLevel (wristDY h1 s.lastWristPos),
         photoFocus := (pinchStep (pinchDistOf h1 < PINCH_THRESHOLD) now s.pinch).2 },
       GestureAction.CONTROL) := by
  rw [processGestures, if_neg hs, if_neg hf, if_neg hl]

/-! ## Concrete test-hand evaluations -/

theorem wristAt_app0 (d : ℝ) : wristAt d 0 = ⟨d, 0⟩ := by norm_num [wristAt]

theorem wristAt_app4 (d : ℝ) : wristAt d 4 = ⟨d + 0.2, 0⟩ := by norm_num [wristAt]

theorem wristAt_app8 (d : ℝ) : wristAt d 8 = ⟨d + 0.9, 0⟩ := by norm_num [wristAt]

theorem wristAt_app12 (d : ℝ) : wristAt d 12 = ⟨d + 0.9, 0⟩ := by norm_num [wristAt]

theorem wristAt_app16 (d : ℝ) : wristAt d 16 = ⟨d + 0.9, 0⟩ := by norm_num [wristAt]

theorem wristAt_app20 (d : ℝ) : wristAt d 20 = ⟨d + 0.9, 0⟩ := by norm_num [wristAt]

theorem tipDist_wristAt8 (d : ℝ) : tipDist (wristAt d) 8 = 0.9 := by
  rw [tipDist, wristAt_app8, wristAt_app0, hypotXY]
  exact sqrt_eval _ _ (by norm_num) (by ring)

theorem tipDist_wristAt12 (d : ℝ) : tipDist (wristAt d) 12 = 0.9 := by
  rw [tipDist, wristAt_app12, wristAt_app0, hypotXY]
  exact sqrt_eval _ _ (by norm_num) (by ring)

theorem tipDist_wristAt16 (d : ℝ) : tipDist (wristAt d) 16 = 0.9 := by
  rw [tipDist, wristAt_app16, wristAt_app0, hypotXY]
  exact sqrt_eval _ _ (by norm_num) (by ring)

theorem tipDist_wristAt20 (d : ℝ) : tipDist (wristAt d) 20 = 0.9 := by
  rw [tipDist, wristAt_app20, wristAt_app0, hypotXY]
  exact sqrt_eval _ _ (by norm_num) (by ring)

theorem avgTipDist_wristAt (d : ℝ) : avgTipDist (wristAt d) = 0.9 := by
  rw [avgTipDist, tipDist_wristAt8, tipDist_wristAt12, tipDist_wristAt16,
    tipDist_wristAt20]
  norm_num

theorem not_checkFist_wristAt (d : ℝ) : ¬ checkFist (wristAt d) := by
  rw [checkFist, avgTipDist_wristAt, FIST_THRESHOLD]
  norm_num

theorem pinchDistOf_wristAt (d : ℝ) : pinchDistOf (wristAt d) = 0.7 := by
  rw [pinchDistOf, wristAt_app4, wristAt_app8, hypotXY]
  exact sqrt_eval _ _ (by norm_num) (by ring)

theorem wristDist_open_wristAt (d : ℝ) (hd : 0 ≤ d) :
    wristDist openHand (wristAt d) = d := by
  rw [wristDist, openHand, wristAt_app0, wristAt_app0, hypotXY]
  exact sqrt_eval _ _ hd (by ring)

theorem engageHand_app0 : engageHand 0 = ⟨0, 0⟩ := by norm_num [engageHand]

theorem engageHand_app4 : engageHand 4 = ⟨0.1, 0⟩ := by norm_num [engageHand]

theorem engageHand_app8 : engageHand 8 = ⟨0.1, 0⟩ := by norm_num [engageHand]

theorem engageHand_app12 : engageHand 12 = ⟨0.9, 0⟩ := by norm_num [engageHand]

theorem engageHand_app16 : engageHand 16 = ⟨0.9, 0⟩ := by norm_num [engageHand]

theorem engageHand_app20 : engageHand 20 = ⟨0.9, 0⟩ := by norm_num [engageHand]

theorem avgTipDist_engageHand : avgTipDist engageHand = 0.7 := by
  have t8 : tipDist engageHand 8 = 0.1 := by
    rw [tipDist, engageHand_app8, engageHand_app0, hypotXY]
    exact sqrt_eval _ _ (by norm_num) (by ring)
  have t12 : tipDist engageHand 12 = 0.9 := by
    rw [tipDist, engageHand_app12, engageHand_app0, hypotXY]
    exact sqrt_eval _ _ (by norm_num) (by ring)
  have t16 : tipDist engageHand 16 = 0.9 := by
    rw [tipDist, engageHand_app16, engageHand_app0, hypotXY]
    exact sqrt_eval _ _ (by norm_num) (by ring)
  have t20 : tipDist engageHand 20 = 0.9 := by
    rw [tipDist, engageHand_app20, engageHand_app0, hypotXY]
    exact sqrt_eval _ _ (by norm_num) (by ring)
  rw [avgTipDist, t8, t12, t16, t20]
  norm_num

theorem not_checkFist_engageHand : ¬ checkFist engageHand := by
  rw [checkFist, avgTipDist_engageHand, FIST_THRESHOLD]
  norm_num

theorem pinchDistOf_engageHand : pinchDistOf engageHand = 0 := by
  rw [pinchDistOf, engageHand_app4, engageHand_app8, hypotXY]
  exact sqrt_eval _ _ (by norm_num) (by ring)

theorem fistHand_app (i : ℕ) : fistHand i = ⟨0.5, 0.5⟩ := rfl

theorem avgTipDist_fistHand : avgTipDist fistHand = 0 := by
  have t : ∀ i : ℕ, tipDist fistHand i = 0 := by
    intro i
    rw [tipDist, fistHand_app, fistHand_app, hypotXY]
    exact sqrt_eval _ _ (by norm_num) (by ring)
  rw [avgTipDist, t, t, t, t]
  norm_num

theorem checkFist_fistHand : checkFist fistHand := by
  rw [checkFist, avgTipDist_fistHand, FIST_THRESHOLD]
  norm_num

theorem pinchDistOf_fistHand : pinchDistOf fistHand = 0 := by
  rw [pinchDistOf, fistHand_app, fistHand_app, hypotXY]
  exact sqrt_eval _ _ (by norm_num) (by ring)

/-! ## Frame-shape helpers -/

theorem not_fistAny_one (h1 : Hand) (h : ¬ checkFist h1) : ¬ fistAny h1 none := by
  intro hf
  cases hf with
  | inl hf => exact h hf
  | inr hf => exact hf

theorem not_fistAny_two (h1 h2 : Hand) (ha : ¬ checkFist h1) (hb : ¬ checkFist h2) :
    ¬ fistAny h1 (some h2) := by
  intro hf
  cases hf with
  | inl hf => exact ha hf
  | inr hf => exact hb hf

theorem not_spreading_one (h1 : Hand) (hist : List ℝ) :
    ¬ isSpreading (newHist h1 none hist) := by
  rw [newHist_one]
  exact not_spreading_short _ (by simp)

/-- C1: in every frame with at least one detected hand where the fist
condition holds for some present hand and the pinch condition holds for the
primary hand, and the spread rule does not fire, `processGestures` resolves
`FORM` — never `LOCKED_FOCUS` or `CONTROL` — for every current pinch/lock
state `s`. -/
theorem C1_fist_beats_pinch (h1 : Hand) (rest : List Hand) (now : ℝ) (s : GState)
    (hs : ¬ isSpreading (newHist h1 rest.head? s.handsDistanceHistory))
    (hf : fistAny h1 rest.head?)
    (_hp : pinchDistOf h1 < PINCH_THRESHOLD) :
    (processGestures (h1 :: rest) now s).2.2 = GestureAction.FORM ∧
    (processGestures (h1 :: rest) now s).2.2 ≠ GestureAction.LOCKED_FOCUS ∧
    (processGestures (h1 :: rest) now s).2.2 ≠ GestureAction.CONTROL := by
  rw [pg_form h1 rest now s hs hf]
  refine ⟨rfl, by simp, by simp⟩

theorem C1_witness :
    checkFist fistHand ∧ pinchDistOf fistHand < PINCH_THRESHOLD ∧
    (processGestures [fistHand] 0 sPinchedLocked).2.2 = GestureAction.FORM :=
  ⟨checkFist_fistHand,
   by rw [pinchDistOf_fistHand, PINCH_THRESHOLD]; norm_num,
   (C1_fist_beats_pinch fistHand [] 0 sPinchedLocked
      (not_spreading_one fistHand _) (Or.inl checkFist_fistHand)
      (by rw [pinchDistOf_fistHand, PINCH_THRESHOLD]; norm_num)).1⟩

/-- C4: whenever the locked branch is reached (the frame passes the spread
and fist rules and the pinch sub-state update leaves `isLocked = true`), the
frame emits rotation velocity exactly 0 and resolves `LOCKED_FOCUS`,
whatever the wrist-delta input is. -/
theorem C4_locked_rotation_zero (h1 : Hand) (rest : List Hand) (now : ℝ) (s : GState)
    (hs : ¬ isSpreading (newHist h1 rest.head? s.handsDistanceHistory))
    (hf : ¬ fistAny h1 rest.head?)
    (hl : (pinchStep (pinchDistOf h1 < PINCH_THRESHOLD) now s.pinch).1.isLocked
        = true) :
    (processGestures (h1 :: rest) now s).2.1.rotate = some 0 ∧
    (processGestures (h1 :: rest) now s).2.2 = GestureAction.LOCKED_FOCUS := by
  rw [pg_locked h1 rest now s hs hf hl]
  exact ⟨rfl, rfl⟩

theorem C4_witness :
    (processGestures [engageHand] 1000 sPinchedLocked).2.1.rotate = some 0 :=
  (C4_locked_rotation_zero engageHand [] 1000 sPinchedLocked
    (not_spreading_one engageHand _)
    (not_fistAny_one engageHand not_checkFist_engageHand)
    (by rw [pinchStep_hold (pinchDistOf engageHand < PINCH_THRESHOLD) 1000
              sPinchedLocked.pinch
              (by rw [pinchDistOf_engageHand, PINCH_THRESHOLD]; norm_num) rfl]
        rfl)).1

/-- C10: the stored last-pinch-release timestamp starts at 0 and the
double-pinch test compares `now - lastPinchReleaseTime < 400` with no check
that a release ever happened, so a first-ever pinch-engage edge at
`now = 100` (less than 400 ms after the time origin), with no prior pinch
or release, locks on that single pinch and resolves `LOCKED_FOCUS`. -/
theorem C10_phantom_first_release :
    initState.pinch.lastPinchReleaseTime = 0 ∧
    initState.pinch.isPinched = false ∧ initState.pinch.isLocked = false ∧
    (processGestures [engageHand] 100 initState).1.pinch.isLocked = true ∧
    (processGestures [engageHand] 100 initState).1.pinch.clickCount = 2 ∧
    (processGestures [engageHand] 100 initState).2.2
      = GestureAction.LOCKED_FOCUS := by
  have hc : pinchDistOf engageHand < PINCH_THRESHOLD := by
    rw [pinchDistOf_engageHand, PINCH_THRESHOLD]; norm_num
  have ht : (100 : ℝ) - initState.pinch.lastPinchReleaseTime
      < DOUBLE_PINCH_TIMING := by
    norm_num [initState, DOUBLE_PINCH_TIMING]
  have hw := pinchStep_engage_window (pinchDistOf engageHand < PINCH_THRESHOLD)
    100 initState.pinch hc rfl ht
  have hl : (pinchStep (pinchDistOf engageHand < PINCH_THRESHOLD) 100
      initState.pinch).1.isLocked = true := by rw [hw]
  have e := pg_locked engageHand [] 100 initState
    (not_spreading_one engageHand _)
    (not_fistAny_one engageHand not_checkFist_engageHand) hl
  refine ⟨rfl, rfl, rfl, ?_, ?_, ?_⟩
  · rw [e]; exact hl
  · rw [e]; show (pinchStep _ 100 initState.pinch).1.clickCount = 2
    rw [hw]
  · rw [e]

/-- C5 counterexample: from the initial state, a single pinch engage at
`now = 100` produces a reachable state with `isLocked = true`; feeding that
locked state a frame whose hand satisfies the fist condition resolves
`FORM`, not `LOCKED_FOCUS` — so the claim that every frame processed while
`is_locked` is true resolves `Locked` even when the fist (or spread)
condition holds is false on the code. -/
theorem C5_counterexample :
    (processGestures [engageHand] 100 initState).1.pinch.isLocked = true ∧
    (processGestures [fistHand] 130
        (processGestures [engageHand] 100 initState).1).2.2
      = GestureAction.FORM ∧
    (processGestures [fistHand] 130
        (processGestures [engageHand] 100 initState).1).2.2
      ≠ GestureAction.LOCKED_FOCUS := by
  have hc : pinchDistOf engageHand < PINCH_THRESHOLD := by
    rw [pinchDistOf_engageHand, PINCH_THRESHOLD]; norm_num
  have ht : (100 : ℝ) - initState.pinch.lastPinchReleaseTime
      < DOUBLE_PINCH_TIMING := by
    norm_num [initState, DOUBLE_PINCH_TIMING]
  have hw := pinchStep_engage_window (pinchDistOf engageHand < PINCH_THRESHOLD)
    100 initState.pinch hc rfl ht
  have hl : (pinchStep (pinchDistOf engageHand < PINCH_THRESHOLD) 100
      initState.pinch).1.isLocked = true := by rw [hw]
  have e1 := pg_locked engageHand [] 100 initState
    (not_spreading_one engageHand _)
    (not_fistAny_one engageHand not_checkFist_engageHand) hl
  have e2 := pg_form fistHand [] 130 (processGestures [engageHand] 100 initState).1
    (not_spreading_one fistHand _) (Or.inl checkFist_fistHand)
  refine ⟨by rw [e1]; exact hl, by rw [e2], by rw [e2]; simp⟩

/-- C5 (amended): while `is_locked` is true and the pinch is still held, any
frame in which neither the spread rule nor the fist rule fires resolves
`LOCKED_FOCUS` and stays locked, whatever the rest of the hand geometry is;
the lock survives until the pinch is explicitly released (or the hands are
lost). -/
theorem C5_locked_sticky (h1 : Hand) (rest : List Hand) (now : ℝ) (s : GState)
    (hs : ¬ isSpreading (newHist h1 rest.head? s.handsDistanceHistory))
    (hf : ¬ fistAny h1 rest.head?)
    (hlock : s.pinch.isLocked = true) (hpin : s.pinch.isPinched = true)
    (hcur : pinchDistOf h1 < PINCH_THRESHOLD) :
    (processGestures (h1 :: rest) now s).2.2 = GestureAction.LOCKED_FOCUS ∧
    (processGestures (h1 :: rest) now s).1.pinch.isLocked = true := by
  have hstep := pinchStep_hold (pinchDistOf h1 < PINCH_THRESHOLD) now s.pinch
    hcur hpin
  have hl : (pinchStep (pinchDistOf h1 < PINCH_THRESHOLD) now s.pinch).1.isLocked
      = true := by rw [hstep]; exact hlock
  rw [pg_locked h1 rest now s hs hf hl]
  exact ⟨rfl, hl⟩

theorem C5_witness :
    (processGestures [engageHand] 500 sPinchedLocked).2.2
      = GestureAction.LOCKED_FOCUS :=
  (C5_locked_sticky engageHand [] 500 sPinchedLocked
    (not_spreading_one engageHand _)
    (not_fistAny_one engageHand not_checkFist_engageHand) rfl rfl
    (by rw [pinchDistOf_engageHand, PINCH_THRESHOLD]; norm_num)).1

/-- C2: across a pinch release followed by the next pinch-engage edge (both
frames reaching the pinch rule), if the time from the release to the engage
is strictly under `DOUBLE_PINCH_TIMING` (400 ms) the engage locks
(`isLocked = true`); if it is at least 400 ms, the engage is a fresh first
pinch: `isLocked` stays false and `clickCount` becomes 1. -/
theorem C2_double_pinch_window (a b : Hand) (ra rb : List Hand) (t1 t2 : ℝ)
    (s : GState)
    (hpin : s.pinch.isPinched = true) (hlock : s.pinch.isLocked = false)
    (hs1 : ¬ isSpreading (newHist a ra.head? s.handsDistanceHistory))
    (hf1 : ¬ fistAny a ra.head?)
    (hrel : ¬ pinchDistOf a < PINCH_THRESHOLD)
    (hs2 : ¬ isSpreading (newHist b rb.head?
        (processGestures (a :: ra) t1 s).1.handsDistanceHistory))
    (hf2 : ¬ fistAny b rb.head?)
    (heng : pinchDistOf b < PINCH_THRESHOLD) :
    (t2 - t1 < DOUBLE_PINCH_TIMING →
      (processGestures (b :: rb) t2
        (processGestures (a :: ra) t1 s).1).1.pinch.isLocked = true) ∧
    (DOUBLE_PINCH_TIMING ≤ t2 - t1 →
      (processGestures (b :: rb) t2
          (processGestures (a :: ra) t1 s).1).1.pinch.isLocked = false ∧
      (processGestures (b :: rb) t2
          (processGestures (a :: ra) t1 s).1).1.pinch.clickCount = 1) := by
  have hstep1 := pinchStep_release_unlocked (pinchDistOf a < PINCH_THRESHOLD)
    t1 s.pinch hrel hpin hlock
  have hl1 : ¬ (pinchStep (pinchDistOf a < PINCH_THRESHOLD) t1 s.pinch).1.isLocked
      = true := by rw [hstep1]; simp
  have e1 := pg_control a ra t1 s hs1 hf1 hl1
  have hp1 : (processGestures (a :: ra) t1 s).1.pinch =
      { isPinched := false, lastPinchReleaseTime := t1,
        clickCount := s.pinch.clickCount, isLocked := false } := by
    rw [e1]
    show (pinchStep (pinchDistOf a < PINCH_THRESHOLD) t1 s.pinch).1 = _
    rw [hstep1]
  constructor
  · intro ht
    have hw := pinchStep_engage_window (pinchDistOf b < PINCH_THRESHOLD) t2
      (processGestures (a :: ra) t1 s).1.pinch heng
      (by rw [hp1]) (by rw [hp1]; exact ht)
    have hl2 : (pinchStep (pinchDistOf b < PINCH_THRESHOLD) t2
        (processGestures (a :: ra) t1 s).1.pinch).1.isLocked = true := by
      rw [hw]
    rw [pg_locked b rb t2 (processGestures (a :: ra) t1 s).1 hs2 hf2 hl2]
    exact hl2
  · intro ht
    have hw := pinchStep_engage_fresh (pinchDistOf b < PINCH_THRESHOLD) t2
      (processGestures (a :: ra) t1 s).1.pinch heng
      (by rw [hp1]) (by rw [hp1]; exact not_lt.mpr ht)
    have hfalse : (pinchStep (pinchDistOf b < PINCH_THRESHOLD) t2
        (processGestures (a :: ra) t1 s).1.pinch).1.isLocked = false := by
      rw [hw]
      show (processGestures (a :: ra) t1 s).1.pinch.isLocked = false
      rw [hp1]
    have hl2 : ¬ (pinchStep (pinchDistOf b < PINCH_THRESHOLD) t2
        (processGestures (a :: ra) t1 s).1.pinch).1.isLocked = true := by
      rw [hfalse]; simp
    rw [pg_control b rb t2 (processGestures (a :: ra) t1 s).1 hs2 hf2 hl2]
    refine ⟨hfalse, ?_⟩
    show (pinchStep (pinchDistOf b < PINCH_THRESHOLD) t2
        (processGestures (a :: ra) t1 s).1.pinch).1.clickCount = 1
    rw [hw]

theorem C2_witness :
    (processGestures [engageHand] 1100
        (processGestures [openHand] 1000 sPinchedUnlocked).1).1.pinch.isLocked
      = true ∧
    (processGestures [engageHand] 1500
        (processGestures [openHand] 1000 sPinchedUnlocked).1).1.pinch.isLocked
      = false :=
  ⟨(C2_double_pinch_window openHand engageHand [] [] 1000 1100 sPinchedUnlocked
      rfl rfl (not_spreading_one openHand _)
      (not_fistAny_one openHand (by rw [openHand]; exact not_checkFist_wristAt 0))
      (by rw [openHand, pinchDistOf_wristAt, PINCH_THRESHOLD]; norm_num)
      (not_spreading_one engageHand _)
      (not_fistAny_one engageHand not_checkFist_engageHand)
      (by rw [pinchDistOf_engageHand, PINCH_THRESHOLD]; norm_num)).1
    (by norm_num [DOUBLE_PINCH_TIMING]),
   ((C2_double_pinch_window openHand engageHand [] [] 1000 1500 sPinchedUnlocked
      rfl rfl (not_spreading_one openHand _)
      (not_fistAny_one openHand (by rw [openHand]; exact not_checkFist_wristAt 0))
      (by rw [openHand, pinchDistOf_wristAt, PINCH_THRESHOLD]; norm_num)
      (not_spreading_one engageHand _)
      (not_fistAny_one engageHand not_checkFist_engageHand)
      (by rw [pinchDistOf_engageHand, PINCH_THRESHOLD]; norm_num)).2
    (by norm_num [DOUBLE_PINCH_TIMING])).1⟩

/-! ## Empty-detection decay helpers -/

theorem emptyRun_velocity (s : GState) :
    ∀ n, (emptyRun s n).smoothedVelocity = s.smoothedVelocity * 0.8 ^ n := by
  intro n
  induction n with
  | zero => simp [emptyRun]
  | succ n ih =>
    show (processGestures [] 0 (emptyRun s n)).1.smoothedVelocity = _
    rw [pg_empty]
    show (emptyRun s n).smoothedVelocity * 0.8 = _
    rw [ih]
    ring

theorem emptyEmitVal_eq (s : GState) (n : ℕ) :
    emptyEmitVal s n =
      if 0.001 < |s.smoothedVelocity| * 0.8 ^ (n + 1) then
        s.smoothedVelocity * 0.8 ^ (n + 1) else 0 := by
  rw [emptyEmitVal, pg_empty]
  show (some (if 0.001 < |(emptyRun s n).smoothedVelocity * 0.8| then
      (emptyRun s n).smoothedVelocity * 0.8 else 0)).getD 0 = _
  rw [Option.getD_some, emptyRun_velocity]
  rw [show s.smoothedVelocity * 0.8 ^ n * 0.8 = s.smoothedVelocity * 0.8 ^ (n + 1)
    from by ring]
  rw [show |s.smoothedVelocity * 0.8 ^ (n + 1)|
      = |s.smoothedVelocity| * 0.8 ^ (n + 1) from by
    rw [abs_mul, abs_of_nonneg (by positivity : (0:ℝ) ≤ 0.8 ^ (n + 1))]]

theorem emptyEmit_mono (s : GState) (n : ℕ) :
    |emptyEmitVal s (n + 1)| ≤ |emptyEmitVal s n| := by
  rw [emptyEmitVal_eq, emptyEmitVal_eq]
  have hpow : (0.8 : ℝ) ^ (n + 2) ≤ 0.8 ^ (n + 1) :=
    pow_le_pow_of_le_one (by norm_num) (by norm_num) (by omega)
  by_cases h : (0.001 : ℝ) < |s.smoothedVelocity| * 0.8 ^ (n + 1 + 1)
  · rw [if_pos h]
    have h1 : (0.001 : ℝ) < |s.smoothedVelocity| * 0.8 ^ (n + 1) := by
      calc (0.001 : ℝ) < |s.smoothedVelocity| * 0.8 ^ (n + 2) := h
        _ ≤ |s.smoothedVelocity| * 0.8 ^ (n + 1) :=
          mul_le_mul_of_nonneg_left hpow (abs_nonneg _)
    rw [if_pos h1, abs_mul, abs_mul,
      abs_of_nonneg (by positivity : (0:ℝ) ≤ 0.8 ^ (n + 1 + 1)),
      abs_of_nonneg (by positivity : (0:ℝ) ≤ 0.8 ^ (n + 1))]
    exact mul_le_mul_of_nonneg_left hpow (abs_nonneg _)
  · rw [if_neg h]
    simp

theorem emptyEmit_eventually_zero (s : GState) :
    ∃ N : ℕ, ∀ n : ℕ, N ≤ n → emptyEmitVal s n = 0 := by
  have hv1 : (0 : ℝ) < |s.smoothedVelocity| + 1 := by positivity
  obtain ⟨N, hN⟩ := exists_pow_lt_of_lt_one
    (div_pos (by norm_num : (0.001:ℝ) > 0) hv1) (by norm_num : (0.8:ℝ) < 1)
  refine ⟨N, fun n hn => ?_⟩
  rw [emptyEmitVal_eq, if_neg]
  rw [not_lt]
  calc |s.smoothedVelocity| * 0.8 ^ (n + 1)
      ≤ (|s.smoothedVelocity| + 1) * 0.8 ^ (n + 1) := by
        apply mul_le_mul_of_nonneg_right (by linarith) (by positivity)
    _ ≤ (|s.smoothedVelocity| + 1) * 0.8 ^ N := by
        apply mul_le_mul_of_nonneg_left
          (pow_le_pow_of_le_one (by norm_num) (by norm_num) (by omega))
          (le_of_lt hv1)
    _ ≤ (|s.smoothedVelocity| + 1) * (0.001 / (|s.smoothedVelocity| + 1)) := by
        apply mul_le_mul_of_nonneg_left (le_of_lt (hN)) (le_of_lt hv1)
    _ = 0.001 := by field_simp

/-- C3: on an empty detection result, `processGestures` multiplies the
smoothed rotation velocity by 0.8 (instead of snapping it to 0), clears the
pinch/lock sub-state and the wrist and inter-hand-distance histories, leaves
the zoom level unchanged (without emitting it), and returns `NONE`; over
consecutive empty results the emitted rotation velocity is monotonically
non-increasing in magnitude and becomes exactly 0 after a bounded number of
steps. -/
theorem C3_empty_decay :
    (∀ (s : GState) (now : ℝ),
      (processGestures [] now s).1.smoothedVelocity
          = s.smoothedVelocity * 0.8 ∧
      (processGestures [] now s).1.pinch.isPinched = false ∧
      (processGestures [] now s).1.pinch.isLocked = false ∧
      (processGestures [] now s).1.pinch.clickCount = 0 ∧
      (processGestures [] now s).1.lastWristPos = none ∧
      (processGestures [] now s).1.handsDistanceHistory = [] ∧
      (processGestures [] now s).1.currentZoomLevel = s.currentZoomLevel ∧
      (processGestures [] now s).2.1.zoom = none ∧
      (processGestures [] now s).2.2 = GestureAction.NONE) ∧
    (∀ s : GState,
      (∀ n : ℕ, |emptyEmitVal s (n + 1)| ≤ |emptyEmitVal s n|) ∧
      ∃ N : ℕ, ∀ n : ℕ, N ≤ n → emptyEmitVal s n = 0) :=
  ⟨fun _ _ => ⟨rfl, rfl, rfl, rfl, rfl, rfl, rfl, rfl, rfl⟩,
   fun s => ⟨emptyEmit_mono s, emptyEmit_eventually_zero s⟩⟩

theorem C3_witness :
    (processGestures [] 0 sPinchedLocked).1.pinch.isLocked = false ∧
    (processGestures [] 0 sPinchedLocked).1.currentZoomLevel
      = sPinchedLocked.currentZoomLevel ∧
    (processGestures [] 0 sPinchedLocked).2.2 = GestureAction.NONE :=
  ⟨(C3_empty_decay.1 sPinchedLocked 0).2.2.1,
   (C3_empty_decay.1 sPinchedLocked 0).2.2.2.2.2.2.1,
   (C3_empty_decay.1 sPinchedLocked 0).2.2.2.2.2.2.2.2⟩

/-! ## History behaviour helpers -/

theorem pushHist_small (l : List ℝ) (d : ℝ) (h : l.length ≤ 4) :
    pushHist l d = l ++ [d] := by
  rw [pushHist, if_neg]
  simp only [List.length_append, List.length_cons, List.length_nil]
  omega

theorem pushHist_full (l : List ℝ) (d : ℝ) (h : l.length = 5) :
    pushHist l d = l.tail ++ [d] := by
  rw [pushHist, if_pos]
  · cases l with
    | nil => simp at h
    | cons a t => simp
  · simp only [List.length_append, List.length_cons, List.length_nil]
    omega

theorem hist_after (h1 : Hand) (rest : List Hand) (now : ℝ) (s : GState) :
    (processGestures (h1 :: rest) now s).1.handsDistanceHistory
      = newHist h1 rest.head? s.handsDistanceHistory := by
  rw [processGestures]
  split_ifs <;> rfl

theorem action_chaos_iff (h1 : Hand) (rest : List Hand) (now : ℝ) (s : GState) :
    (processGestures (h1 :: rest) now s).2.2 = GestureAction.CHAOS ↔
      isSpreading (newHist h1 rest.head? s.handsDistanceHistory) := by
  constructor
  · intro h
    by_contra hs
    rw [processGestures, if_neg hs] at h
    split_ifs at h
  · intro hs
    rw [pg_chaos h1 rest now s hs]

theorem newHist_open_wristAt (d : ℝ) (hd : 0 ≤ d) (h : List ℝ) :
    newHist openHand (some (wristAt d)) h = pushHist h d := by
  rw [newHist_two, wristDist_open_wristAt d hd]

theorem not_checkFist_openHand : ¬ checkFist openHand := by
  rw [openHand]
  exact not_checkFist_wristAt 0

theorem not_pinch_openHand : ¬ pinchDistOf openHand < PINCH_THRESHOLD := by
  rw [openHand, pinchDistOf_wristAt, PINCH_THRESHOLD]
  norm_num

/-! ## Two-hand step lemmas over the concrete open-hand pair -/

theorem open_pair_control (d : ℝ) (hd : 0 ≤ d) (now : ℝ) (s : GState)
    (hs : ¬ isSpreading (pushHist s.handsDistanceHistory d))
    (hp : s.pinch.isPinched = false) (hl : s.pinch.isLocked = false) :
    (processGestures [openHand, wristAt d] now s).2.2 = GestureAction.CONTROL ∧
    (processGestures [openHand, wristAt d] now s).1.handsDistanceHistory
      = pushHist s.handsDistanceHistory d ∧
    (processGestures [openHand, wristAt d] now s).1.pinch = s.pinch := by
  have hh : newHist openHand (([wristAt d] : List Hand).head?)
      s.handsDistanceHistory = pushHist s.handsDistanceHistory d :=
    newHist_open_wristAt d hd _
  have hs' : ¬ isSpreading (newHist openHand (([wristAt d] : List Hand).head?)
      s.handsDistanceHistory) := by rw [hh]; exact hs
  have hf : ¬ fistAny openHand (([wristAt d] : List Hand).head?) :=
    not_fistAny_two _ _ not_checkFist_openHand (not_checkFist_wristAt d)
  have hps := pinchStep_idle (pinchDistOf openHand < PINCH_THRESHOLD) now
    s.pinch not_pinch_openHand hp
  have hl' : ¬ (pinchStep (pinchDistOf openHand < PINCH_THRESHOLD) now
      s.pinch).1.isLocked = true := by
    rw [hps]
    show ¬ s.pinch.isLocked = true
    rw [hl]
    simp
  have e := pg_control openHand [wristAt d] now s hs' hf hl'
  refine ⟨by rw [e], by rw [e]; exact hh, ?_⟩
  rw [e]
  show (pinchStep (pinchDistOf openHand < PINCH_THRESHOLD) now s.pinch).1 = s.pinch
  rw [hps]

theorem open_pair_chaos (d : ℝ) (hd : 0 ≤ d) (now : ℝ) (s : GState)
    (hs : isSpreading (pushHist s.handsDistanceHistory d)) :
    (processGestures [openHand, wristAt d] now s).2.2 = GestureAction.CHAOS ∧
    (processGestures [openHand, wristAt d] now s).1.handsDistanceHistory
      = pushHist s.handsDistanceHistory d ∧
    (processGestures [openHand, wristAt d] now s).1.pinch = s.pinch := by
  have hh : newHist openHand (([wristAt d] : List Hand).head?)
      s.handsDistanceHistory = pushHist s.handsDistanceHistory d :=
    newHist_open_wristAt d hd _
  have hs' : isSpreading (newHist openHand (([wristAt d] : List Hand).head?)
      s.handsDistanceHistory) := by rw [hh]; exact hs
  have e := pg_chaos openHand [wristAt d] now s hs'
  exact ⟨by rw [e], by rw [e]; exact hh, by rw [e]⟩

/-! ## The spread scenario, frame by frame -/

theorem scen_eval :
    scenAct 0 = GestureAction.CONTROL ∧ scenAct 1 = GestureAction.CONTROL ∧
    scenAct 2 = GestureAction.CHAOS ∧ scenAct 3 = GestureAction.CHAOS ∧
    scenAct 4 = GestureAction.CHAOS := by
  have e0 : initState.handsDistanceHistory = [] := rfl
  have h0 := open_pair_control 0.10 (by norm_num) 0 initState
    (by rw [e0, pushHist_small _ _ (by simp)]
        exact not_spreading_short _ (by simp)) rfl rfl
  have hist1 : (scenState 1).handsDistanceHistory = [0.10] := by
    show (processGestures [openHand, wristAt 0.10] 0
      initState).1.handsDistanceHistory = _
    rw [h0.2.1, e0, pushHist_small _ _ (by simp)]
    rfl
  have pin1 : (scenState 1).pinch = initState.pinch := by
    show (processGestures [openHand, wristAt 0.10] 0 initState).1.pinch = _
    exact h0.2.2
  have h1 := open_pair_control 0.11 (by norm_num) 0 (scenState 1)
    (by rw [hist1, pushHist_small _ _ (by simp)]
        exact not_spreading_short _ (by simp))
    (by rw [pin1]; rfl) (by rw [pin1]; rfl)
  have hist2 : (scenState 2).handsDistanceHistory = [0.10, 0.11] := by
    show (processGestures [openHand, wristAt 0.11] 0
      (scenState 1)).1.handsDistanceHistory = _
    rw [h1.2.1, hist1, pushHist_small _ _ (by simp)]
    rfl
  have pin2 : (scenState 2).pinch = initState.pinch := by
    show (processGestures [openHand, wristAt 0.11] 0 (scenState 1)).1.pinch = _
    rw [h1.2.2, pin1]
  have hsp2 : isSpreading (pushHist (scenState 2).handsDistanceHistory 0.13) := by
    rw [hist2, pushHist_small _ _ (by simp)]
    show isSpreading [0.10, 0.11, 0.13]
    refine ⟨by simp, ?_⟩
    show (0.015 : ℝ) < 0.13 - 0.10
    norm_num
  have h2 := open_pair_chaos 0.13 (by norm_num) 0 (scenState 2) hsp2
  have hist3 : (scenState 3).handsDistanceHistory = [0.10, 0.11, 0.13] := by
    show (processGestures [openHand, wristAt 0.13] 0
      (scenState 2)).1.handsDistanceHistory = _
    rw [h2.2.1, hist2, pushHist_small _ _ (by simp)]
    rfl
  have hsp3 : isSpreading (pushHist (scenState 3).handsDistanceHistory 0.16) := by
    rw [hist3, pushHist_small _ _ (by simp)]
    show isSpreading [0.10, 0.11, 0.13, 0.16]
    refine ⟨by simp, ?_⟩
    show (0.015 : ℝ) < 0.16 - 0.10
    norm_num
  have h3 := open_pair_chaos 0.16 (by norm_num) 0 (scenState 3) hsp3
  have hist4 : (scenState 4).handsDistanceHistory = [0.10, 0.11, 0.13, 0.16] := by
    show (processGestures [openHand, wristAt 0.16] 0
      (scenState 3)).1.handsDistanceHistory = _
    rw [h3.2.1, hist3, pushHist_small _ _ (by simp)]
    rfl
  have hsp4 : isSpreading (pushHist (scenState 4).handsDistanceHistory 0.20) := by
    rw [hist4, pushHist_small _ _ (by simp)]
    show isSpreading [0.10, 0.11, 0.13, 0.16, 0.20]
    refine ⟨by simp, ?_⟩
    show (0.015 : ℝ) < 0.20 - 0.10
    norm_num
  have h4 := open_pair_chaos 0.20 (by norm_num) 0 (scenState 4) hsp4
  exact ⟨h0.1, h1.1, h2.1, h3.1, h4.1⟩

/-- C6: every two-hand frame pushes the current inter-hand wrist distance
into the history of capacity 5 (appending below capacity, dropping the
oldest at capacity); the frame resolves `CHAOS` exactly when the post-push
history holds at least 3 samples and the newest minus the oldest retained
sample exceeds `CHAOS_SPREAD_SPEED_THRESHOLD = 0.015`; any one-hand frame
clears the history; and the scenario feeding wrist distances
[0.10, 0.11, 0.13, 0.16, 0.20] over 5 consecutive two-hand frames resolves
`CHAOS` from the third frame on — the first frame whose history satisfies
the spread test. -/
theorem C6_spread_history :
    (∀ (l : List ℝ) (d : ℝ), l.length ≤ 4 → pushHist l d = l ++ [d]) ∧
    (∀ (l : List ℝ) (d : ℝ), l.length = 5 → pushHist l d = l.tail ++ [d]) ∧
    (∀ (h1 h2 : Hand) (rest : List Hand) (now : ℝ) (s : GState),
      (processGestures (h1 :: h2 :: rest) now s).1.handsDistanceHistory
        = pushHist s.handsDistanceHistory (wristDist h1 h2)) ∧
    (∀ (h1 h2 : Hand) (rest : List Hand) (now : ℝ) (s : GState),
      ((processGestures (h1 :: h2 :: rest) now s).2.2 = GestureAction.CHAOS ↔
        3 ≤ (pushHist s.handsDistanceHistory (wristDist h1 h2)).length ∧
        CHAOS_SPREAD_SPEED_THRESHOLD <
          (pushHist s.handsDistanceHistory (wristDist h1 h2)).getLastD 0
            - (pushHist s.handsDistanceHistory (wristDist h1 h2)).headD 0)) ∧
    (∀ (h1 : Hand) (now : ℝ) (s : GState),
      (processGestures [h1] now s).1.handsDistanceHistory = []) ∧
    (scenAct 0 = GestureAction.CONTROL ∧ scenAct 1 = GestureAction.CONTROL ∧
     scenAct 2 = GestureAction.CHAOS ∧ scenAct 3 = GestureAction.CHAOS ∧
     scenAct 4 = GestureAction.CHAOS) := by
  refine ⟨pushHist_small, pushHist_full, ?_, ?_, ?_, scen_eval⟩
  · intro h1 h2 rest now s
    rw [hist_after]
    rfl
  · intro h1 h2 rest now s
    rw [action_chaos_iff]
    exact Iff.rfl
  · intro h1 now s
    rw [hist_after]
    rfl

theorem C6_witness :
    pushHist [0.1, 0.2, 0.3, 0.4, 0.5] 0.6 = [0.2, 0.3, 0.4, 0.5, 0.6] := by
  rw [C6_spread_history.2.1 [0.1, 0.2, 0.3, 0.4, 0.5] 0.6 (by simp)]
  rfl

/-! ## Drag-control rule -/

theorem one_hand_control (h1 : Hand) (now : ℝ) (s : GState)
    (hcf : ¬ checkFist h1) (hpd : ¬ pinchDistOf h1 < PINCH_THRESHOLD)
    (hp : s.pinch.isPinched = false) (hl : s.pinch.isLocked = false) :
    (processGestures [h1] now s).2.1.rotate
      = some (s.smoothedVelocity * 0.8
          + rotImpulse (wristDX h1 s.lastWristPos) * 0.2) ∧
    (processGestures [h1] now s).1.smoothedVelocity
      = s.smoothedVelocity * 0.8
          + rotImpulse (wristDX h1 s.lastWristPos) * 0.2 ∧
    (processGestures [h1] now s).2.2 = GestureAction.CONTROL := by
  have hps := pinchStep_idle (pinchDistOf h1 < PINCH_THRESHOLD) now s.pinch hpd hp
  have hl' : ¬ (pinchStep (pinchDistOf h1 < PINCH_THRESHOLD) now
      s.pinch).1.isLocked = true := by
    rw [hps]
    show ¬ s.pinch.isLocked = true
    rw [hl]
    simp
  have e := pg_control h1 [] now s (not_spreading_one h1 _)
    (not_fistAny_one h1 hcf) hl'
  exact ⟨by rw [e], by rw [e], by rw [e]⟩

theorem wristAt_x (d : ℝ) : ((wristAt d) 0).x = d := by rw [wristAt_app0]

theorem not_pinch_wristAt (d : ℝ) : ¬ pinchDistOf (wristAt d) < PINCH_THRESHOLD := by
  rw [pinchDistOf_wristAt, PINCH_THRESHOLD]
  norm_num

/-- C7 counterexample: with the previous wrist sample at the origin and a
new wrist sample at x = 0.02 (so dX = 0.02, above the 0.01 deadzone), the
code's impulse is `(|dX| - 0.01) ^ 1.2 * 20 = 0.01 ^ 1.2 * 20`, while the
claimed formula gives `|dX| ^ 1.2 * 20 = 0.02 ^ 1.2 * 20`; the emitted
blended velocity therefore differs from the claimed one, refuting the claim
at this concrete input. -/
theorem C7_counterexample :
    (processGestures [wristAt 0.02] 0 sTracking).2.1.rotate
      = some (sTracking.smoothedVelocity * 0.8 + rotImpulse 0.02 * 0.2) ∧
    rotImpulse 0.02 = (0.01 : ℝ) ^ (1.2 : ℝ) * ROTATION_SENSITIVITY ∧
    claimedImpulse 0.02 = (0.02 : ℝ) ^ (1.2 : ℝ) * ROTATION_SENSITIVITY ∧
    (processGestures [wristAt 0.02] 0 sTracking).2.1.rotate
      ≠ some (sTracking.smoothedVelocity * 0.8 + claimedImpulse 0.02 * 0.2) := by
  have habs : |(0.02 : ℝ)| = 0.02 := abs_of_nonneg (by norm_num)
  have hth : ROTATION_THRESHOLD < |(0.02 : ℝ)| := by
    rw [ROTATION_THRESHOLD, habs]
    norm_num
  have hsign : signR 0.02 = 1 := by rw [signR, if_pos (by norm_num : (0:ℝ) < 0.02)]
  have hbase : |(0.02 : ℝ)| - ROTATION_THRESHOLD = 0.01 := by
    rw [habs, ROTATION_THRESHOLD]
    norm_num
  have hdx : wristDX (wristAt 0.02) sTracking.lastWristPos = 0.02 := by
    show ((wristAt 0.02) 0).x - 0 = 0.02
    rw [wristAt_x]
    norm_num
  have h1 := one_hand_control (wristAt 0.02) 0 sTracking
    (not_checkFist_wristAt 0.02) (not_pinch_wristAt 0.02) rfl rfl
  have hrot : (processGestures [wristAt 0.02] 0 sTracking).2.1.rotate
      = some (sTracking.smoothedVelocity * 0.8 + rotImpulse 0.02 * 0.2) := by
    rw [h1.1, hdx]
  have hcode : rotImpulse 0.02 = (0.01 : ℝ) ^ (1.2 : ℝ) * ROTATION_SENSITIVITY := by
    rw [rotImpulse, if_pos hth, hsign, hbase, one_mul]
  have hclaim : claimedImpulse 0.02
      = (0.02 : ℝ) ^ (1.2 : ℝ) * ROTATION_SENSITIVITY := by
    rw [claimedImpulse, if_pos hth, hsign, habs, one_mul]
  refine ⟨hrot, hcode, hclaim, ?_⟩
  rw [hrot, hcode, hclaim]
  intro heq
  rw [Option.some_inj] at heq
  have hlt : (0.01 : ℝ) ^ (1.2 : ℝ) < (0.02 : ℝ) ^ (1.2 : ℝ) :=
    Real.rpow_lt_rpow (by norm_num) (by norm_num) (by norm_num)
  rw [ROTATION_SENSITIVITY] at heq
  nlinarith [hlt]

/-- C7 (amended): in every frame reaching the drag-control rule with a
previous wrist sample, if `|dX|` exceeds the deadzone the rotation impulse
is `sign(dX) * (|dX| - ROTATION_THRESHOLD) ^ 1.2 * ROTATION_SENSITIVITY`
(the deadzone is subtracted from the magnitude before the superlinear
power), and it is blended into the smoothed velocity as
`v * 0.8 + impulse * 0.2` rather than overwriting it; if `|dX|` is within
the deadzone the impulse is 0 and the velocity still decays to `v * 0.8`. -/
theorem C7_drag_impulse (h1 : Hand) (rest : List Hand) (now : ℝ) (s : GState)
    (p : ℝ × ℝ)
    (hs : ¬ isSpreading (newHist h1 rest.head? s.handsDistanceHistory))
    (hf : ¬ fistAny h1 rest.head?)
    (hl : ¬ (pinchStep (pinchDistOf h1 < PINCH_THRESHOLD) now
        s.pinch).1.isLocked = true)
    (hw : s.lastWristPos = some p) :
    (ROTATION_THRESHOLD < |(h1 0).x - p.1| →
      (processGestures (h1 :: rest) now s).2.1.rotate
        = some (s.smoothedVelocity * 0.8
            + (signR ((h1 0).x - p.1)
                * (|(h1 0).x - p.1| - ROTATION_THRESHOLD) ^ (1.2 : ℝ)
                * ROTATION_SENSITIVITY) * 0.2) ∧
      (processGestures (h1 :: rest) now s).1.smoothedVelocity
        = s.smoothedVelocity * 0.8
            + (signR ((h1 0).x - p.1)
                * (|(h1 0).x - p.1| - ROTATION_THRESHOLD) ^ (1.2 : ℝ)
                * ROTATION_SENSITIVITY) * 0.2) ∧
    (¬ ROTATION_THRESHOLD < |(h1 0).x - p.1| →
      (processGestures (h1 :: rest) now s).2.1.rotate
        = some (s.smoothedVelocity * 0.8 + 0 * 0.2)) := by
  have e := pg_control h1 rest now s hs hf hl
  have hdx : wristDX h1 s.lastWristPos = (h1 0).x - p.1 := by
    rw [hw]
    rfl
  constructor
  · intro hth
    have hri : rotImpulse (wristDX h1 s.lastWristPos)
        = signR ((h1 0).x - p.1)
            * (|(h1 0).x - p.1| - ROTATION_THRESHOLD) ^ (1.2 : ℝ)
            * ROTATION_SENSITIVITY := by
      rw [hdx, rotImpulse, if_pos hth]
    exact ⟨by rw [e]; rw [hri], by rw [e]; rw [hri]⟩
  · intro hth
    have hri : rotImpulse (wristDX h1 s.lastWristPos) = 0 := by
      rw [hdx, rotImpulse, if_neg hth]
    rw [e]
    rw [hri]

theorem C7_witness :
    (processGestures [wristAt 0.02] 5 sTracking).2.1.rotate
      = some (sTracking.smoothedVelocity * 0.8
          + (signR (((wristAt 0.02) 0).x - ((0, 0) : ℝ × ℝ).1)
              * (|((wristAt 0.02) 0).x - ((0, 0) : ℝ × ℝ).1|
                  - ROTATION_THRESHOLD) ^ (1.2 : ℝ)
              * ROTATION_SENSITIVITY) * 0.2) :=
  ((C7_drag_impulse (wristAt 0.02) [] 5 sTracking ((0, 0) : ℝ × ℝ)
      (not_spreading_one (wristAt 0.02) _)
      (not_fistAny_one (wristAt 0.02) (not_checkFist_wristAt 0.02))
      (by rw [pinchStep_idle (pinchDistOf (wristAt 0.02) < PINCH_THRESHOLD) 5
            sTracking.pinch (not_pinch_wristAt 0.02) rfl]
          show ¬ sTracking.pinch.isLocked = true
          simp [sTracking, initState])
      rfl).1
    (by rw [wristAt_x]
        show ROTATION_THRESHOLD < |(0.02 : ℝ) - 0|
        rw [show |(0.02 : ℝ) - 0| = 0.02 from by
          rw [abs_of_nonneg (by norm_num : (0:ℝ) ≤ 0.02 - 0)]
          norm_num]
        rw [ROTATION_THRESHOLD]
        norm_num)).1

/-! ## Zoom invariant -/

theorem clamp01_bounds (x : ℝ) : 0 ≤ clamp01 x ∧ clamp01 x ≤ 1 := by
  rw [clamp01]
  exact ⟨le_max_left 0 _, max_le (by norm_num) (min_le_left 1 x)⟩

theorem zoom_step (f : List Hand) (now : ℝ) (s : GState) :
    (processGestures f now s).1.currentZoomLevel = s.currentZoomLevel ∨
    ∃ d : ℝ, ZOOM_THRESHOLD < |d| ∧
      (processGestures f now s).1.currentZoomLevel
        = clamp01 (s.currentZoomLevel + -d * ZOOM_SENSITIVITY) := by
  cases f with
  | nil => left; rfl
  | cons h1 rest =>
    rw [processGestures]
    split_ifs with hsp hfi hlo
    · left; rfl
    · left; rfl
    · left; rfl
    · show zoomNext s.currentZoomLevel (wristDY h1 s.lastWristPos)
          = s.currentZoomLevel ∨
        ∃ d : ℝ, ZOOM_THRESHOLD < |d| ∧
          zoomNext s.currentZoomLevel (wristDY h1 s.lastWristPos)
            = clamp01 (s.currentZoomLevel + -d * ZOOM_SENSITIVITY)
      rw [zoomNext]
      split_ifs with hz
      · right
        exact ⟨wristDY h1 s.lastWristPos, hz, rfl⟩
      · left
        rfl

theorem zoom_mem_step (f : List Hand) (now : ℝ) (s : GState)
    (h0 : 0 ≤ s.currentZoomLevel) (h1 : s.currentZoomLevel ≤ 1) :
    0 ≤ (processGestures f now s).1.currentZoomLevel ∧
    (processGestures f now s).1.currentZoomLevel ≤ 1 := by
  rcases zoom_step f now s with he | ⟨d, _, he⟩
  · rw [he]
    exact ⟨h0, h1⟩
  · rw [he]
    exact clamp01_bounds _

theorem zoom_run_inv (inps : List (List Hand × ℝ)) :
    ∀ s : GState, 0 ≤ s.currentZoomLevel → s.currentZoomLevel ≤ 1 →
      0 ≤ (run s inps).currentZoomLevel ∧ (run s inps).currentZoomLevel ≤ 1 := by
  induction inps with
  | nil => exact fun s h0 h1 => ⟨h0, h1⟩
  | cons a t ih =>
    intro s h0 h1
    obtain ⟨g0, g1⟩ := zoom_mem_step a.1 a.2 s h0 h1
    exact ih (step s a) g0 g1

/-- C8: the accumulated zoom level starts at 0.5 ∈ [0,1]; each invocation
either leaves it unchanged or replaces it by the clamp to [0,1] of itself
plus the scaled vertical wrist delta (no decay path exists); hence along
every run of detection results from the initial state the zoom level never
leaves [0,1]. -/
theorem C8_zoom_clamped :
    (0 ≤ initState.currentZoomLevel ∧ initState.currentZoomLevel ≤ 1) ∧
    (∀ (f : List Hand) (now : ℝ) (s : GState),
      (processGestures f now s).1.currentZoomLevel = s.currentZoomLevel ∨
      ∃ d : ℝ, ZOOM_THRESHOLD < |d| ∧
        (processGestures f now s).1.currentZoomLevel
          = clamp01 (s.currentZoomLevel + -d * ZOOM_SENSITIVITY)) ∧
    (∀ inps : List (List Hand × ℝ),
      0 ≤ (run initState inps).currentZoomLevel ∧
      (run initState inps).currentZoomLevel ≤ 1) := by
  refine ⟨⟨?_, ?_⟩, zoom_step, ?_⟩
  · show (0 : ℝ) ≤ 0.5
    norm_num
  · show (0.5 : ℝ) ≤ 1
    norm_num
  · intro inps
    exact zoom_run_inv inps initState (by show (0:ℝ) ≤ 0.5; norm_num)
      (by show (0.5:ℝ) ≤ 1; norm_num)

theorem C8_witness :
    0 ≤ (run initState [([fistHand], 0), ([], 1)]).currentZoomLevel ∧
    (run initState [([fistHand], 0), ([], 1)]).currentZoomLevel ≤ 1 :=
  C8_zoom_clamped.2.2 [([fistHand], 0), ([], 1)]

/-! ## Lock invariant -/

theorem pinchStep_lock_pinched (c : Prop) (now : ℝ) (p : PinchState)
    (hp : p.isLocked = true → p.isPinched = true)
    (hl : (pinchStep c now p).1.isLocked = true) :
    (pinchStep c now p).1.isPinched = true := by
  by_cases hc : c
  · cases hpin : p.isPinched with
    | true => rw [pinchStep_hold c now p hc hpin]; exact hpin
    | false =>
      by_cases hw : now - p.lastPinchReleaseTime < DOUBLE_PINCH_TIMING
      · rw [pinchStep_engage_window c now p hc hpin hw]
      · rw [pinchStep_engage_fresh c now p hc hpin hw]
  · cases hpin : p.isPinched with
    | true =>
      by_cases hlk : p.isLocked = true
      · rw [pinchStep_release_locked c now p hc hpin hlk] at hl
        exact Bool.noConfusion hl
      · have hlk' : p.isLocked = false := by
          cases hb : p.isLocked
          · rfl
          · exact absurd hb hlk
        rw [pinchStep_release_unlocked c now p hc hpin hlk'] at hl
        exact Bool.noConfusion hl
    | false =>
      rw [pinchStep_idle c now p hc hpin] at hl ⊢
      exact hp hl

theorem lock_step (f : List Hand) (now : ℝ) (s : GState)
    (h : s.pinch.isLocked = true → s.pinch.isPinched = true) :
    (processGestures f now s).1.pinch.isLocked = true →
    (processGestures f now s).1.pinch.isPinched = true := by
  cases f with
  | nil =>
    intro hl
    exact Bool.noConfusion (show false = true from hl)
  | cons h1 rest =>
    rw [processGestures]
    split_ifs with hsp hfi hlo
    · exact h
    · exact h
    · intro hl
      exact pinchStep_lock_pinched _ now s.pinch h hl
    · intro hl
      exact pinchStep_lock_pinched _ now s.pinch h hl

theorem lock_run_inv (inps : List (List Hand × ℝ)) :
    ∀ s : GState, (s.pinch.isLocked = true → s.pinch.isPinched = true) →
      ((run s inps).pinch.isLocked = true →
        (run s inps).pinch.isPinched = true) := by
  induction inps with
  | nil => exact fun s h => h
  | cons a t ih =>
    intro s h
    exact ih (step s a) (lock_step a.1 a.2 s h)

theorem lock_clear_step (f : List Hand) (now : ℝ) (s : GState)
    (hl : s.pinch.isLocked = true)
    (hc : (processGestures f now s).1.pinch.isLocked = false) :
    f = [] ∨ ∃ (h1 : Hand) (rest : List Hand), f = h1 :: rest ∧
      ¬ pinchDistOf h1 < PINCH_THRESHOLD ∧ s.pinch.isPinched = true := by
  cases f with
  | nil => exact Or.inl rfl
  | cons h1 rest =>
    refine Or.inr ⟨h1, rest, rfl, ?_⟩
    rw [processGestures] at hc
    split_ifs at hc with hsp hfi hlo
    · have hc2 : s.pinch.isLocked = false := hc
      rw [hl] at hc2
      exact Bool.noConfusion hc2
    · have hc2 : s.pinch.isLocked = false := hc
      rw [hl] at hc2
      exact Bool.noConfusion hc2
    · have hc2 : (pinchStep (pinchDistOf h1 < PINCH_THRESHOLD) now
          s.pinch).1.isLocked = false := hc
      rw [hlo] at hc2
      exact Bool.noConfusion hc2
    · have hc2 : (pinchStep (pinchDistOf h1 < PINCH_THRESHOLD) now
          s.pinch).1.isLocked = false := hc
      by_cases hcur : pinchDistOf h1 < PINCH_THRESHOLD
      · exfalso
        cases hpin : s.pinch.isPinched with
        | true =>
          rw [pinchStep_hold _ now s.pinch hcur hpin] at hc2
          have hc3 : s.pinch.isLocked = false := hc2
          rw [hl] at hc3
          exact Bool.noConfusion hc3
        | false =>
          by_cases hw : now - s.pinch.lastPinchReleaseTime < DOUBLE_PINCH_TIMING
          · rw [pinchStep_engage_window _ now s.pinch hcur hpin hw] at hc2
            exact Bool.noConfusion hc2
          · rw [pinchStep_engage_fresh _ now s.pinch hcur hpin hw] at hc2
            have hc3 : s.pinch.isLocked = false := hc2
            rw [hl] at hc3
            exact Bool.noConfusion hc3
      · refine ⟨hcur, ?_⟩
        cases hpin : s.pinch.isPinched with
        | true => rfl
        | false =>
          rw [pinchStep_idle _ now s.pinch hcur hpin] at hc2
          have hc3 : s.pinch.isLocked = false := hc2
          rw [hl] at hc3
          exact Bool.noConfusion hc3

theorem engage_lock_eval :
    processGestures [engageHand] 100 initState
      = ({ initState with
            handsDistanceHistory := [],
            pinch := { isPinched := true, lastPinchReleaseTime := 0,
                       clickCount := 2, isLocked := true } },
         { rotate := some 0, photoFocus := some true },
         GestureAction.LOCKED_FOCUS) := by
  have hc : pinchDistOf engageHand < PINCH_THRESHOLD := by
    rw [pinchDistOf_engageHand, PINCH_THRESHOLD]
    norm_num
  have ht : (100 : ℝ) - initState.pinch.lastPinchReleaseTime
      < DOUBLE_PINCH_TIMING := by
    norm_num [initState, DOUBLE_PINCH_TIMING]
  have hw := pinchStep_engage_window (pinchDistOf engageHand < PINCH_THRESHOLD)
    100 initState.pinch hc rfl ht
  have hl : (pinchStep (pinchDistOf engageHand < PINCH_THRESHOLD) 100
      initState.pinch).1.isLocked = true := by rw [hw]
  rw [pg_locked engageHand [] 100 initState (not_spreading_one engageHand _)
    (not_fistAny_one engageHand not_checkFist_engageHand) hl, hw]
  rfl

/-- C9 counterexample: a reachable locked state (single engage at t = 100
from the initial state, locked via the phantom initial release time) fed an
empty detection result has its lock cleared even though no pinch-release
edge occurred — the empty frame never reaches the pinch rule and records no
release (the stored release timestamp is unchanged).  This refutes the
claim that `is_locked` is cleared only by the matching pinch-release
edge. -/
theorem C9_counterexample :
    (processGestures [engageHand] 100 initState).1.pinch.isLocked = true ∧
    (processGestures [] 200
        (processGestures [engageHand] 100 initState).1).1.pinch.isLocked
      = false ∧
    (processGestures [] 200
        (processGestures [engageHand] 100
          initState).1).1.pinch.lastPinchReleaseTime
      = (processGestures [engageHand] 100
          initState).1.pinch.lastPinchReleaseTime := by
  rw [engage_lock_eval]
  exact ⟨rfl, rfl, rfl⟩

/-- C9 (amended): in every state reachable from the initial state,
`isLocked = true` implies `isPinched = true` (the lock is set only on a
pinch rising edge); and a set lock is cleared only by the matching
pinch-release edge (a frame reaching the pinch rule whose pinch distance is
at or above threshold while the state was pinched) or by a zero-hand frame,
which clears all pinch sub-state. -/
theorem C9_lock_invariant :
    (∀ inps : List (List Hand × ℝ),
      (run initState inps).pinch.isLocked = true →
      (run initState inps).pinch.isPinched = true) ∧
    (∀ (f : List Hand) (now : ℝ) (s : GState),
      s.pinch.isLocked = true →
      (processGestures f now s).1.pinch.isLocked = false →
      f = [] ∨ ∃ (h1 : Hand) (rest : List Hand), f = h1 :: rest ∧
        ¬ pinchDistOf h1 < PINCH_THRESHOLD ∧ s.pinch.isPinched = true) := by
  refine ⟨?_, lock_clear_step⟩
  intro inps
  exact lock_run_inv inps initState (fun h => Bool.noConfusion h)

theorem C9_witness :
    (run initState [([engageHand], 100)]).pinch.isPinched = true :=
  C9_lock_invariant.1 [([engageHand], 100)]
    (by show (processGestures [engageHand] 100 initState).1.pinch.isLocked = true
        rw [engage_lock_eval])
